import Mathlib

/-!
# Verification of the mle editor core (input dispatch and session orchestration)

A shallow embedding of the control core of the `mle` terminal editor:
the keymap trie resolver (`_editor_get_kbinding_node`, `_editor_get_command`),
the input acquisition / macro recording path (`editor_get_input`),
the prompt controller (`editor_prompt`, `editor_set_active`),
tab completion (`_editor_prompt_input_complete`), and the async multiplexer
(`_editor_drain_async_procs`, `util_timeval_is_gt`).

Pointers into the trie are modelled by structural values; pointer identity
(`node == kmap->bindings`) is modelled by structural equality, which is
adequate here because the resolver only ever compares a node against the
root of the keymap it is currently consulting.  Machine integers are
modelled as `Nat`.  External collaborators (termbox events, the shell,
async pipes, buffer storage) enter as explicit oracle parameters.
-/

set_option autoImplicit false

namespace Mle

/-! ## Keystrokes -/

/-- A keystroke: `(modifier bitset, unicode codepoint, special key code)`,
mirroring `kinput_t`.  Equality is bitwise over all three fields
(`memcmp` in the source), modelled by structural `DecidableEq`. -/
structure kinput where
  mod : Nat
  ch : Nat
  key : Nat
deriving DecidableEq, Repr

instance : Inhabited kinput := ⟨⟨0, 0, 0⟩⟩

/-- Modelled from the spec: the `NUMERIC` sentinel keystroke
(`MLE_KINPUT_NUMERIC` from `mle.h`, which is not under `src/`).  The exact
bit pattern is irrelevant; it only needs to differ from every keystroke a
terminal can produce, so we place its codepoint beyond the Unicode range. -/
def MLE_KINPUT_NUMERIC : kinput := ⟨0, 0x110001, 0⟩

/-- Modelled from the spec: the `WILDCARD` sentinel keystroke
(`MLE_KINPUT_WILDCARD` from `mle.h`, which is not under `src/`). -/
def MLE_KINPUT_WILDCARD : kinput := ⟨0, 0x110002, 0⟩

/-- Modelled from the spec: compile-time maximum number of digits in the
numeric accumulator (`MLE_LOOP_CTX_MAX_NUMERIC_LEN` from `mle.h`, not under
`src/`; the spec only says the buffer is "bounded by a compile-time
maximum digits"). -/
def MLE_LOOP_CTX_MAX_NUMERIC_LEN : Nat := 20

/-- Modelled from the spec: capacity of the parsed numeric-parameter
vector (`MLE_LOOP_CTX_MAX_NUMERIC_PARAMS` from `mle.h`, not under `src/`). -/
def MLE_LOOP_CTX_MAX_NUMERIC_PARAMS : Nat := 8

/-- Modelled from the spec: capacity of the wildcard-parameter vector
(`MLE_LOOP_CTX_MAX_WILDCARD_PARAMS` from `mle.h`, not under `src/`). -/
def MLE_LOOP_CTX_MAX_WILDCARD_PARAMS : Nat := 8

/-- Modelled from the spec: maximum length of a tab-completion stem
(`MLE_LOOP_CTX_MAX_COMPLETE_TERM_SIZE` from `mle.h`, not under `src/`; the
spec says the stem is of "bounded length; bail if too long"). -/
def MLE_LOOP_CTX_MAX_COMPLETE_TERM_SIZE : Nat := 256

/-- `input->ch >= '0' && input->ch <= '9'` from `_editor_get_kbinding_node`. -/
def isDigitCh (ch : Nat) : Bool := 48 ≤ ch && ch ≤ 57

/-! ## The keymap trie -/

/-- A trie node (`kbinding_t`): an owning map from child keystroke to
child node, an optional leaf command reference and an optional static
parameter.  Command references are identified by their registry name
(`cmd_funcref_t.name`, unique editor-wide). -/
inductive kbinding : Type where
  | mk : List (kinput × kbinding) → Option String → Option String → kbinding
deriving Repr

/-- Child map of a node. -/
def kbinding.children : kbinding → List (kinput × kbinding)
  | .mk c _ _ => c

/-- Leaf command reference of a node (if any). -/
def kbinding.funcref : kbinding → Option String
  | .mk _ f _ => f

/-- Static parameter carried by a leaf (if any). -/
def kbinding.static_param : kbinding → Option String
  | .mk _ _ s => s

instance : Inhabited kbinding := ⟨.mk [] none none⟩

mutual

/-- Structural equality on trie nodes; stands in for C pointer equality in
the single place the resolver compares nodes (`node == kmap->bindings`). -/
def kbinding.beq : kbinding → kbinding → Bool
  | .mk c f s, .mk c' f' s' => f == f' && s == s' && kbinding.beqChildren c c'

/-- Structural equality on child maps. -/
def kbinding.beqChildren : List (kinput × kbinding) → List (kinput × kbinding) → Bool
  | [], [] => true
  | (i, b) :: r, (i', b') :: r' => i == i' && kbinding.beq b b' && kbinding.beqChildren r r'
  | _, _ => false

end

/-- `HASH_FIND(hh, children, input, ...)`: look up a child by keystroke.
Keys are unique in the uthash table; the association list returns the
first (only) match. -/
def hash_find (children : List (kinput × kbinding)) (i : kinput) : Option kbinding :=
  (children.find? (fun p => p.1 == i)).map (·.2)

/-- A keymap (`kmap_t`): named trie root, optional default command and the
allow-fallthru flag. -/
structure kmap where
  name : String
  bindings : kbinding
  default_funcref : Option String
  allow_fallthru : Bool

/-! ## Loop context -/

/-- The per-loop dispatch state (`loop_context_t`), restricted to the
fields the resolver, event loop and tab completion read and write.  The C
numeric buffer `char numeric[...]` with its length `numeric_len` is the
list `numeric` of accumulated digit codepoints; the parameter arrays with
their lengths are lists. -/
structure loop_context where
  binding_node : Option kbinding
  need_more_input : Bool
  numeric : List Nat
  numeric_node : Option kbinding
  numeric_params : List Nat
  wildcard_params : List Nat
  last_cmd : Option String
  tab_complete_term : List Char
  tab_complete_index : Nat

instance : Inhabited loop_context :=
  ⟨⟨none, false, [], none, [], [], none, [], 0⟩⟩

/-- The zeroed loop context (`memset(&loop_ctx, 0, ...)`). -/
def loop_context.init : loop_context :=
  ⟨none, false, [], none, [], [], none, [], 0⟩

/-- `strtoul(loop_ctx->numeric, NULL, 10)` on the accumulated digit
characters, modelled as the exact unsigned decimal value (the buffer holds
at most `MLE_LOOP_CTX_MAX_NUMERIC_LEN` digit characters). -/
def parse_decimal (digits : List Nat) : Nat :=
  digits.foldl (fun acc c => 10 * acc + (c - 48)) 0

/-! ## The trie resolver: `_editor_get_kbinding_node` -/

/-- Result of one `_editor_get_kbinding_node` call: the updated loop
context, the returned binding (NULL = `none`) and the `ret_again` flag. -/
structure knode_out where
  lc : loop_context
  binding : Option kbinding
  again : Bool

/-- Tail of `_editor_get_kbinding_node` ("Look for input" /
"Look for wildcard"): exact child lookup, then the wildcard fallback,
which captures the input's codepoint subject to the capacity bound. -/
def kbinding_node_find (node : kbinding) (input : kinput) (lc : loop_context) :
    knode_out :=
  -- Look for input
  match hash_find node.children input with
  | some binding => ⟨lc, some binding, false⟩
  | none =>
    -- Look for wildcard
    match hash_find node.children MLE_KINPUT_WILDCARD with
    | some binding =>
      if lc.wildcard_params.length < MLE_LOOP_CTX_MAX_WILDCARD_PARAMS then
        ⟨{ lc with wildcard_params := lc.wildcard_params ++ [input.ch] },
         some binding, false⟩
      else
        ⟨lc, none, false⟩  -- Ran out of wildcard_params space
    | none => ⟨lc, none, false⟩

/-- Middle of `_editor_get_kbinding_node` ("Parse/reset numeric buffer"):
if the numeric buffer is non-empty, parse it as an unsigned decimal, push
it onto the numeric parameters (aborting if they are full), clear the
buffer and resume on the `NUMERIC` child's subtree with the current
input; then fall into the lookup tail.  Only reached with `is_peek == 0`.
The source dereferences `loop_ctx->numeric_node` when resuming, so it is
non-null in every state the code reaches (digits are only accumulated
while `numeric_node` is set); `getD node` covers the unreachable null
case totally. -/
def kbinding_node_lookup (node : kbinding) (input : kinput) (lc : loop_context) :
    knode_out :=
  -- Parse/reset numeric buffer
  if lc.numeric.length > 0 then
    if lc.numeric_params.length < MLE_LOOP_CTX_MAX_NUMERIC_PARAMS then
      kbinding_node_find (lc.numeric_node.getD node) input
        { lc with numeric := []
                  numeric_params := lc.numeric_params ++ [parse_decimal lc.numeric]
                  numeric_node := none }
    else
      -- Ran out of numeric_params space
      ⟨{ lc with numeric := [], numeric_node := none }, none, false⟩
  else
    kbinding_node_find node input lc

/-- `_editor_get_kbinding_node`: find a binding for `input` under `node`,
honouring numeric and wildcard edges.  In peek mode every mutation of the
loop context is skipped and only the exact child lookup runs. -/
def _editor_get_kbinding_node (node : kbinding) (input : kinput) (lc : loop_context)
    (is_peek : Bool) : knode_out :=
  if is_peek then
    ⟨lc, hash_find node.children input, false⟩
  else
    -- Look for numeric
    if isDigitCh input.ch then
      let lc1 :=
        if lc.numeric_node.isNone then
          { lc with numeric_node := hash_find node.children MLE_KINPUT_NUMERIC }
        else lc
      if lc1.numeric_node.isSome then
        if lc1.numeric.length < MLE_LOOP_CTX_MAX_NUMERIC_LEN then
          ⟨{ lc1 with numeric := lc1.numeric ++ [input.ch] }, some node, true⟩
        else
          ⟨lc1, none, false⟩  -- Ran out of numeric buffer
      else
        kbinding_node_lookup node input lc1
    else
      kbinding_node_lookup node input lc

/-! ## The stack resolver: `_editor_get_command` -/

/-- Result of `_editor_get_command`: the updated loop context, the command
context's `static_param` after the call, and the returned command
reference (NULL = `none`). -/
structure resolve_out where
  lc : loop_context
  static_param : Option String
  funcref : Option String

/-- The `while (kmap_node)` loop of `_editor_get_command`.  The keymap
stack is the list from `kmap_tail` following `prev` pointers (head =
most recently pushed keymap).  `nodeOpt` is the resumed `binding_node`
(consulted only on the first iteration, when `is_top` is false). -/
def get_command_loop (input : kinput) (is_peek : Bool) :
    List kmap → Option kbinding → Bool → loop_context → Option String → resolve_out
  | [], _, _, lc, sp => ⟨lc, sp, none⟩
  | km :: rest, nodeOpt, is_top, lc, sp =>
    let node := if is_top then km.bindings else nodeOpt.getD km.bindings
    let r := _editor_get_kbinding_node node input lc is_peek
    match r.binding with
    | some b =>
      if r.again then
        -- Need more input on current node
        if is_peek then ⟨r.lc, sp, none⟩
        else ⟨{ r.lc with need_more_input := true, binding_node := some b }, sp, none⟩
      else if b.funcref.isSome then
        -- Found leaf!
        ⟨r.lc, (if is_peek then sp else b.static_param), b.funcref⟩
      else if !b.children.isEmpty then
        -- Need more input on next node
        if is_peek then ⟨r.lc, sp, none⟩
        else ⟨{ r.lc with need_more_input := true, binding_node := some b }, sp, none⟩
      else
        -- This shouldn't happen (invariant: children or funcref)
        ⟨r.lc, sp, none⟩
    | none =>
      if kbinding.beq node km.bindings then
        -- Binding not found at top level
        match km.default_funcref with
        | some d => ⟨r.lc, sp, some d⟩  -- Fallback to default
        | none =>
          if km.allow_fallthru then
            -- Fallback to previous kmap on stack
            get_command_loop input is_peek rest none true r.lc sp
          else
            ⟨r.lc, sp, none⟩  -- Fallback not allowed
      else
        ⟨r.lc, sp, none⟩  -- Binding not found (mid-traversal)

/-- `_editor_get_command`: resolve `input` against the active view's
keymap stack, resuming from `loop_ctx->binding_node` when set.
`need_more_input` and `binding_node` are cleared unconditionally on entry
(also in peek mode).  `sp` is the incoming `ctx->static_param`. -/
def _editor_get_command (stack : List kmap) (lc : loop_context) (sp : Option String)
    (input : kinput) (is_peek : Bool) : resolve_out :=
  let node0 := lc.binding_node
  let is_top := node0.isNone
  let lc1 := { lc with need_more_input := false, binding_node := none }
  get_command_loop input is_peek stack node0 is_top lc1 sp

/-- One committing keystroke of the event loop's dispatch tail
(`_editor_loop`, after `_editor_get_command` returns): on a resolved
command the loop clears `binding_node`, the wildcard and numeric parameter
vectors and records `last_cmd`; on need-more-input the state is left
intact; on unbound `binding_node` is cleared.  Command execution itself is
a collaborator and does not touch these fields.  Returns the loop context
carried to the next keystroke, the loop context the command saw (the
parameters delivered to it), its static param and the executed funcref. -/
def loop_step (stack : List kmap) (lc : loop_context) (input : kinput) :
    loop_context × loop_context × Option String × Option String :=
  let r := _editor_get_command stack lc none input false
  match r.funcref with
  | some f =>
    ({ r.lc with binding_node := none, wildcard_params := [], numeric_params := []
                 last_cmd := some f },
     r.lc, r.static_param, some f)
  | none =>
    if r.lc.need_more_input then (r.lc, r.lc, r.static_param, none)
    else ({ r.lc with binding_node := none }, r.lc, r.static_param, none)

/-- Feed a sequence of keystrokes through successive committing
`loop_step`s, returning the final step's outputs. -/
def loop_steps (stack : List kmap) : loop_context → List kinput →
    loop_context × loop_context × Option String × Option String
  | lc, [] => (lc, lc, none, none)
  | lc, [i] => loop_step stack lc i
  | lc, i :: rest => loop_steps stack (loop_step stack lc i).1 rest

/-! ## Macros and input acquisition -/

/-- A recorded macro (`kmacro_t`): a name and a growable sequence of
keystrokes.  The geometric capacity bookkeeping of the C buffer is
elided; its net effect is an append. -/
structure kmacro_t where
  name : String
  inputs : List kinput
deriving DecidableEq, Repr

/-- `_editor_record_macro_input`: append one input to a macro's buffer. -/
def _editor_record_macro_input (mac : kmacro_t) (input : kinput) : kmacro_t :=
  { mac with inputs := mac.inputs ++ [input] }

/-- View types (`MLE_BVIEW_TYPE_*` from `mle.h`, which is not under
`src/`; the three types are named by the spec's data model). -/
inductive bview_type : Type where
  | edit | status | prompt
deriving DecidableEq, Repr

/-- A buffer view (`bview_t`), restricted to the fields the core claims
read: a stable identity standing in for the C pointer, the view type and
the split-parent link. -/
structure bview where
  id : Nat
  type : bview_type
  split_parent : Option Nat
  split_child : Option Nat
deriving DecidableEq, Repr

/-- `MLE_BVIEW_IS_EDIT` (macro from `mle.h`, not under `src/`): the view
is of EDIT type. -/
def MLE_BVIEW_IS_EDIT (b : bview) : Bool := b.type == bview_type.edit

/-- The editor (`editor_t`), restricted to the fields the claims touch:
the view collections, focus state, the prompt slot and the macro engine
state.  The head of `all_bviews` is the most recently prepended view
(`CDL_PREPEND2`); `top_bviews` is in append order (`DL_APPEND2`). -/
structure editor where
  all_bviews : List bview
  top_bviews : List Nat
  active : Option Nat
  active_edit : Option Nat
  active_edit_root : Option Nat
  prompt : Option Nat
  next_bview_id : Nat
  macro_apply : Option kmacro_t
  macro_apply_input_index : Nat
  -- the source field is named is_recording_macro
  is_macro_recording : Bool
  macro_record : Option kmacro_t

/-- The command context (`cmd_context_t`), restricted to the input
acquisition fields. -/
structure cmd_context where
  input : kinput
  is_user_input : Bool
  has_pastebuf_leftover : Bool
  pastebuf_leftover : kinput
  pastebuf : List kinput

/-- `_editor_get_user_input`: reset the paste buffer, consume the paste
leftover if present, otherwise poll the terminal.  The `tb_poll_event`
loop (with its resize/error handling) is the terminal collaborator; the
keystroke it eventually produces enters as the oracle `tty`. -/
def _editor_get_user_input (ctx : cmd_context) (tty : kinput) : cmd_context :=
  let ctx := { ctx with pastebuf := [] }
  if ctx.has_pastebuf_leftover then
    { ctx with input := ctx.pastebuf_leftover, has_pastebuf_leftover := false }
  else
    { ctx with input := tty }

/-- `editor_get_input`: take the next input from the active macro replay
if one is active and not exhausted, otherwise (clearing an exhausted
replay) from the terminal; then, if a macro is being recorded, append the
acquired input to it.  The recording happens after either branch. -/
def editor_get_input (e : editor) (ctx : cmd_context) (tty : kinput) :
    editor × cmd_context :=
  let ctx0 := { ctx with is_user_input := false }
  let (e1, ctx1) :=
    match e.macro_apply with
    | some m =>
      if e.macro_apply_input_index < m.inputs.length then
        -- Get input from macro
        ({ e with macro_apply_input_index := e.macro_apply_input_index + 1 },
         { ctx0 with input := m.inputs.getD e.macro_apply_input_index default })
      else
        -- Clear macro, get user input
        ({ e with macro_apply := none, macro_apply_input_index := 0 },
         { _editor_get_user_input ctx0 tty with is_user_input := true })
    | none =>
      -- Get user input
      (e, { _editor_get_user_input ctx0 tty with is_user_input := true })
  if e1.is_macro_recording then
    match e1.macro_record with
    | some m =>
      ({ e1 with macro_record := some (_editor_record_macro_input m ctx1.input) }, ctx1)
    | none => (e1, ctx1)
  else
    (e1, ctx1)

/-! ## View lifecycle: existence, focus, prompt -/

/-- MLE result codes (`MLE_OK` / `MLE_ERR`). -/
inductive mle_result : Type where
  | ok | err
deriving DecidableEq, Repr

/-- `editor_bview_exists`: walk `all_bviews` and compare identities. -/
def editor_bview_exists (e : editor) (id : Nat) : Bool :=
  e.all_bviews.any (fun b => b.id == id)

/-- Look a view up by identity in `all_bviews`. -/
def lookup_bview (e : editor) (id : Nat) : Option bview :=
  e.all_bviews.find? (fun b => b.id == id)

/-- Modelled from the spec: `bview_get_split_root` lives in the bview
collaborator (not under `src/`).  Per the spec's data model a view has at
most one split parent, so the split root is found by following
`split_parent` upward; the fuel bounds the walk by the number of views. -/
def split_root_go (e : editor) : Nat → bview → Nat
  | 0, b => b.id
  | fuel + 1, b =>
    match b.split_parent with
    | none => b.id
    | some pid =>
      match lookup_bview e pid with
      | some p => split_root_go e fuel p
      | none => b.id

/-- Modelled from the spec: the root of a view's split chain. -/
def bview_get_split_root (e : editor) (b : bview) : Nat :=
  split_root_go e e.all_bviews.length b

/-- `editor_set_active`: reject a view that is not in `all_bviews`,
reject any change while a prompt is open, otherwise set `active` and, for
EDIT views, `active_edit` and `active_edit_root`.
(`bview_rectify_viewport` is a drawing collaborator with no core state.) -/
def editor_set_active (e : editor) (id : Nat) : editor × mle_result :=
  if !editor_bview_exists e id then
    (e, .err)
  else if e.prompt.isSome then
    (e, .err)
  else
    match lookup_bview e id with
    | none => (e, .err)  -- unreachable: existence was just checked
    | some b =>
      let e1 := { e with active := some id }
      let e2 :=
        if MLE_BVIEW_IS_EDIT b then
          { e1 with active_edit := some id
                    active_edit_root := some (bview_get_split_root e1 b) }
        else e1
      (e2, .ok)

/-- `editor_open_bview`, restricted to the list/focus effects the claims
need: allocate a view (fresh identity standing in for the new pointer),
prepend to `all_bviews`, append to `top_bviews` or attach as a
split-child, optionally make it active.  Buffer/path/rect/linenum
handling belongs to collaborators. -/
def editor_open_bview (e : editor) (parent : Option Nat) (type : bview_type)
    (make_active : Bool) : editor × Nat :=
  let bv : bview := { id := e.next_bview_id, type := type
                      split_parent := parent, split_child := none }
  let e1 := { e with all_bviews := bv :: e.all_bviews, next_bview_id := e.next_bview_id + 1 }
  let e2 :=
    match parent with
    | none => { e1 with top_bviews := e1.top_bviews ++ [bv.id] }
    | some pid =>
      { e1 with all_bviews := e1.all_bviews.map (fun b =>
          if b.id == pid then { b with split_child := some bv.id } else b) }
  let e3 := if make_active then (editor_set_active e2 bv.id).1 else e2
  (e3, bv.id)

/-- `editor_prompt`: fail immediately (ERR, answer NULL) when another
prompt is open; otherwise open a PROMPT view at the prompt rect, make it
active, record it in `editor->prompt`, and hand over to the nested event
loop followed by teardown and focus restore (lines 198-224).  That tail
runs the reentrant `_editor_loop` and the bview destroy collaborators, so
it enters as the oracle `session`, which receives the editor with the
prompt open and produces the editor after teardown plus the answer. -/
def editor_prompt (e : editor) (session : editor → editor × Option String) :
    editor × mle_result × Option String :=
  -- Disallow nested prompts
  if e.prompt.isSome then
    (e, .err, none)
  else
    let (e1, pid) := editor_open_bview e none .prompt true
    let e2 := { e1 with prompt := some pid }
    let (e3, answer) := session e2
    (e3, .ok, answer)

/-! ## Tab completion: `_editor_prompt_input_complete` -/

/-- The registry name of the tab-completion command; `last_cmd` is
compared against it (the C compares the memoized function pointer). -/
def tab_complete_cmd : String := "_editor_prompt_input_complete"

/-- The newline count of the compgen output
(`term = strchr(terms, '\n'); while (term) ...`). -/
def count_nl (s : List Char) : Nat := s.count '\n'

/-- Split at every newline, keeping empty fields (the raw field structure
of the output). -/
def split_nl : List Char → List (List Char)
  | [] => [[]]
  | c :: rest =>
    if c = '\n' then [] :: split_nl rest
    else
      match split_nl rest with
      | f :: fs => (c :: f) :: fs
      | [] => [[c]]

/-- `strtok(terms, "\n")` iteration: the nonempty fields in order
(strtok skips runs of delimiters). -/
def strtok_nl (s : List Char) : List (List Char) :=
  (split_nl s).filter (fun t => !t.isEmpty)

/-- `_editor_prompt_input_complete`: on the first press of a streak
(detected via `last_cmd`) snapshot the prompt line as the stem (bailing
if too long) and reset the index; on subsequent presses increment the
index.  Run the compgen shell command on the stem (the shell is the
oracle `compgen`, returning raw bytes), count newline-terminated terms,
bail if none, and replace the prompt buffer with the `index mod N`-th
strtok token.  `buf` is the single prompt line; `buffer_set` replaces it. -/
def _editor_prompt_input_complete (compgen : List Char → List Char)
    (lc : loop_context) (buf : List Char) : loop_context × List Char :=
  -- Update tab_complete_term and tab_complete_index
  let st :=
    if lc.last_cmd == some tab_complete_cmd then
      some { lc with tab_complete_index := lc.tab_complete_index + 1 }
    else if buf.length < MLE_LOOP_CTX_MAX_COMPLETE_TERM_SIZE then
      some { lc with tab_complete_term := buf, tab_complete_index := 0 }
    else
      none
  match st with
  | none => (lc, buf)
  | some lc1 =>
    let terms := compgen lc1.tab_complete_term
    let num_terms := count_nl terms
    -- Bail if no terms
    if num_terms < 1 then (lc1, buf)
    else
      let term_index := lc1.tab_complete_index % num_terms
      match (strtok_nl terms).get? term_index with
      | some t => (lc1, t)
      | none => (lc1, buf)

/-- A streak of `n` successive tab presses: each press runs the
completion command and then, because the command resolved and executed,
the event loop records it as `last_cmd`. -/
def tab_streak (compgen : List Char → List Char) :
    Nat → loop_context × List Char → loop_context × List Char
  | 0, st => st
  | n + 1, (lc, buf) =>
    let (lc1, buf1) := _editor_prompt_input_complete compgen lc buf
    tab_streak compgen n ({ lc1 with last_cmd := some tab_complete_cmd }, buf1)

/-! ## Async multiplexer: `util_timeval_is_gt`, `_editor_drain_async_procs` -/

/-- `struct timeval`. -/
structure timeval where
  tv_sec : Int
  tv_usec : Int
deriving DecidableEq, Repr

/-- `util_timeval_is_gt`: return 1 if `a > b`, else 0. -/
def util_timeval_is_gt (a b : timeval) : Bool :=
  if a.tv_sec > b.tv_sec then true
  else if a.tv_sec == b.tv_sec then decide (a.tv_usec > b.tv_usec)
  else false

/-- An async proc (`async_proc_t`), restricted to one drain turn.
`async.c` is not under `src/`, so the OS-facing fields are per-turn
oracles: `ready` is `FD_ISSET(pipefd)` after the select, and
`read_nbytes`/`read_error`/`read_eof` are the outcome `fread`/`ferror`/
`feof` would report this turn.  `timeout` is the proc's deadline;
modelled from the spec: the spec's async multiplexer enforces "per-proc
deadlines" and terminates "an async proc that misses its deadline", so
`timeout` is the absolute time at which the deadline passes. -/
structure async_proc where
  id : Nat
  ready : Bool
  read_nbytes : Nat
  read_error : Bool
  read_eof : Bool
  is_done : Bool
  timeout : timeval
deriving DecidableEq, Repr

/-- A callback invocation observed during a drain turn:
`callback(aproc, buf, nbytes, errflag, eofflag, done)`. -/
inductive cb_event : Type where
  | data (id : Nat) (nbytes : Nat) (err : Bool) (eof : Bool)
  | done (id : Nat)
deriving DecidableEq, Repr

/-- The per-proc body of the drain loop (`DL_FOREACH_SAFE` in
`_editor_drain_async_procs`): if the pipe is ready, read up to 1 KiB and,
if bytes arrived, invoke the callback; then destroy the proc (after one
final `done=1` callback) when the read hit EOF or error, the proc flags
itself done, or `util_timeval_is_gt(&aproc->timeout, &now)` holds.
Returns the pipes read, the callbacks invoked and whether the proc was
destroyed. -/
def drain_proc (now : timeval) (p : async_proc) :
    List Nat × List cb_event × Bool :=
  let reads := if p.ready then [p.id] else []
  let (evs, is_done) :=
    if p.ready then
      (if p.read_nbytes > 0 then [cb_event.data p.id p.read_nbytes p.read_error p.read_eof]
       else [],
       p.read_error || p.read_eof)
    else ([], false)
  if is_done || p.is_done || util_timeval_is_gt p.timeout now then
    (reads, evs ++ [cb_event.done p.id], true)
  else
    (reads, evs, false)

/-- The outcome of the select in `_editor_drain_async_procs`: an error,
a timeout with no ready descriptors, or readiness with the TTY flag
(per-proc readiness lives in each proc's `ready` oracle). -/
inductive select_result : Type where
  | err | timeout | ready (tty : Bool)
deriving DecidableEq, Repr

/-- Result of one drain turn: the return value (1 = call again, 0 = do
not drain again this turn), the pipes read, the callbacks invoked, and
the surviving procs. -/
structure drain_out where
  ret : Nat
  reads : List Nat
  events : List cb_event
  procs : List async_proc
deriving DecidableEq, Repr

/-- `_editor_drain_async_procs` after the select (the TTY lazy-open and
fd-set construction precede it): select error returns 0 touching nothing;
timeout returns 1 (call again); if the TTY is ready return 0 immediately
(TTY priority) without touching any proc; otherwise walk the proc list,
reading, invoking callbacks and destroying as `drain_proc` dictates, and
return 1. -/
def _editor_drain_async_procs (sel : select_result) (procs : List async_proc)
    (now : timeval) : drain_out :=
  match sel with
  | .err => ⟨0, [], [], procs⟩
  | .timeout => ⟨1, [], [], procs⟩
  | .ready tty =>
    if tty then
      -- Immediately give priority to user input
      ⟨0, [], [], procs⟩
    else
      let stepped := procs.map (fun p => (p, drain_proc now p))
      ⟨1,
       stepped.flatMap (fun x => x.2.1),
       stepped.flatMap (fun x => x.2.2.1),
       (stepped.filter (fun x => !x.2.2.2)).map (·.1)⟩

/-! ## Helper lemmas -/

mutual

/-- Structural node equality is reflexive (a value compared against
itself models a pointer compared against itself). -/
theorem kbeq_refl : ∀ b : kbinding, kbinding.beq b b = true
  | .mk c f s => by
    unfold kbinding.beq
    simp [kbeqChildren_refl c]

/-- Structural child-map equality is reflexive. -/
theorem kbeqChildren_refl : ∀ c : List (kinput × kbinding), kbinding.beqChildren c c = true
  | [] => by unfold kbinding.beqChildren; rfl
  | (i, b) :: r => by
    unfold kbinding.beqChildren
    simp [kbeq_refl b, kbeqChildren_refl r]

end

/-- In peek mode the trie step is exactly the bare child lookup and the
loop context passes through untouched. -/
theorem kbinding_node_peek (node : kbinding) (input : kinput) (lc : loop_context) :
    _editor_get_kbinding_node node input lc true =
      ⟨lc, hash_find node.children input, false⟩ := rfl

/-- The stack walk in peek mode returns the loop context and the static
parameter unchanged, whatever it classifies the input as. -/
theorem get_command_loop_peek (input : kinput) :
    ∀ (stack : List kmap) (nodeOpt : Option kbinding) (is_top : Bool)
      (lc : loop_context) (sp : Option String),
      (get_command_loop input true stack nodeOpt is_top lc sp).lc = lc ∧
      (get_command_loop input true stack nodeOpt is_top lc sp).static_param = sp
  | [], _, _, _, _ => ⟨rfl, rfl⟩
  | km :: rest, nodeOpt, is_top, lc, sp => by
    have ih := get_command_loop_peek input rest none true lc sp
    unfold get_command_loop
    simp only [kbinding_node_peek]
    repeat' split
    all_goals first
      | exact ⟨rfl, rfl⟩
      | exact ih
      | simp_all


/-! ## Claim C4: peek mode -/

/-- Claim C4 (amended): resolving in peek mode leaves the numeric buffer,
`numeric_node`, the numeric and wildcard parameter vectors, `last_cmd`,
the tab-completion state and `static_param` unchanged, but it does NOT
leave the whole loop context unchanged: `_editor_get_command`
unconditionally clears `need_more_input` and `binding_node` on entry,
also in peek mode.  Its classification consults exact-match edges only,
so it can differ from a committing resolve. -/
theorem c4_peek_is_frame_preserving (stack : List kmap) (lc : loop_context)
    (sp : Option String) (input : kinput) :
    (_editor_get_command stack lc sp input true).lc =
      { lc with need_more_input := false, binding_node := none } ∧
    (_editor_get_command stack lc sp input true).static_param = sp := by
  unfold _editor_get_command
  exact get_command_loop_peek input stack lc.binding_node lc.binding_node.isNone
    { lc with need_more_input := false, binding_node := none } sp

/-- Concrete data for claim C4: a leaf bound to `"wc"` behind a wildcard
edge, and a loop context suspended mid-chord. -/
def c4_leaf : kbinding := .mk [] (some "wc") none

/-- Concrete keymap for claim C4. -/
def c4_km : kmap := ⟨"c4", .mk [(MLE_KINPUT_WILDCARD, c4_leaf)] none none, none, false⟩

/-- Concrete mid-chord loop context for claim C4. -/
def c4_lc : loop_context :=
  { loop_context.init with binding_node := some c4_leaf, need_more_input := true }

/-- Concrete keystroke (`u`) for claim C4. -/
def c4_input : kinput := ⟨0, 117, 0⟩

/-- Claim C4 as stated is false: (a) from a mid-chord loop context a peek
clears `binding_node` and `need_more_input`, so the loop context is not
identical before and after; (b) on a wildcard-bound input the peek
classification (unbound) differs from what a committing resolve from the
same state decides (resolved `"wc"`). -/
theorem c4_peek_counterexample :
    ((_editor_get_command [c4_km] c4_lc none c4_input true).lc.binding_node.isSome = false
      ∧ c4_lc.binding_node.isSome = true
      ∧ (_editor_get_command [c4_km] c4_lc none c4_input true).lc.need_more_input = false
      ∧ c4_lc.need_more_input = true)
    ∧
    ((_editor_get_command [c4_km] loop_context.init none c4_input true).funcref = none
      ∧ (_editor_get_command [c4_km] loop_context.init none c4_input false).funcref
          = some "wc") := by decide

/-! ## Claim C7: async proc destruction and deadlines -/

/-- Claim C7 is contradicted by the code: in the proc-reading branch the
destruction test is `util_timeval_is_gt(&aproc->timeout, &now)`, i.e.
"deadline still in the future", not "deadline passed".  Evaluated at the
failing inputs: a proc with no data, no error, not flagged done and a
deadline 5 seconds in the FUTURE is destroyed this turn (after a final
`done=1` callback), while the same proc with its deadline 5 seconds in
the PAST survives the turn. -/
theorem c7_deadline_comparison_inverted :
    (_editor_drain_async_procs (.ready false)
        [⟨7, false, 0, false, false, false, ⟨10, 0⟩⟩] ⟨5, 0⟩
      = ⟨1, [], [.done 7], []⟩)
    ∧
    (_editor_drain_async_procs (.ready false)
        [⟨8, false, 0, false, false, false, ⟨5, 0⟩⟩] ⟨10, 0⟩
      = ⟨1, [], [], [⟨8, false, 0, false, false, false, ⟨5, 0⟩⟩]⟩) := by decide

/-! ## Claim C8: TTY priority -/

/-- Claim C8: whenever the select reports the TTY read-handle ready, the
multiplexer returns 0 (do not call again / input available) immediately,
reads no async proc pipe, invokes no callback and leaves the proc list
untouched, however many proc pipes are also ready. -/
theorem c8_tty_priority (procs : List async_proc) (now : timeval) :
    _editor_drain_async_procs (.ready true) procs now = ⟨0, [], [], procs⟩ := rfl


/-! ## Claim C3: macro recording vs replay -/

/-- Concrete replayed keystroke for claim C3. -/
def c3_replay_input : kinput := ⟨0, 104, 0⟩

/-- Concrete editor for claim C3: replaying macro `m` (one unconsumed
input) while simultaneously recording macro `r`. -/
def c3_editor : editor :=
  { all_bviews := [], top_bviews := [], active := none, active_edit := none,
    active_edit_root := none, prompt := none, next_bview_id := 0,
    macro_apply := some ⟨"m", [c3_replay_input]⟩, macro_apply_input_index := 0,
    is_macro_recording := true, macro_record := some ⟨"r", []⟩ }

/-- Concrete command context for claim C3. -/
def c3_ctx : cmd_context := ⟨⟨0, 0, 0⟩, false, false, ⟨0, 0, 0⟩, []⟩

/-- Claim C3 as stated is false: with recording and replay both active,
`editor_get_input` takes the next input from the replaying macro
(`is_user_input = 0`) and still appends it to the recording macro, so
after the replay the recorded macro does contain a keystroke that
originated from the replay. -/
theorem c3_replayed_input_recorded_counterexample :
    ((editor_get_input c3_editor c3_ctx ⟨0, 120, 0⟩).2.is_user_input = false)
    ∧ ((editor_get_input c3_editor c3_ctx ⟨0, 120, 0⟩).2.input = c3_replay_input)
    ∧ ((editor_get_input c3_editor c3_ctx ⟨0, 120, 0⟩).1.macro_record
        = some ⟨"r", [c3_replay_input]⟩) := by decide

/-- Claim C3 (amended): while recording is active, `editor_get_input`
appends every acquired input to the recording macro regardless of its
origin — user keystrokes and replayed keystrokes alike. -/
theorem c3_recording_appends_every_input (e : editor) (ctx : cmd_context)
    (tty : kinput) (m : kmacro_t)
    (hrec : e.is_macro_recording = true) (hm : e.macro_record = some m) :
    (editor_get_input e ctx tty).1.macro_record =
      some (_editor_record_macro_input m (editor_get_input e ctx tty).2.input) := by
  unfold editor_get_input
  cases ha : e.macro_apply with
  | none => simp [hrec, hm]
  | some m2 =>
    by_cases hi : e.macro_apply_input_index < m2.inputs.length <;>
      simp [hi, hrec, hm]

/-- Witness for the amended claim C3 at the concrete recording editor. -/
theorem c3_recording_appends_every_input_witness :
    (editor_get_input c3_editor c3_ctx ⟨0, 120, 0⟩).1.macro_record =
      some (_editor_record_macro_input ⟨"r", []⟩
        (editor_get_input c3_editor c3_ctx ⟨0, 120, 0⟩).2.input) :=
  c3_recording_appends_every_input c3_editor c3_ctx ⟨0, 120, 0⟩ ⟨"r", []⟩ rfl rfl

/-! ## Claim C5: nested prompts are rejected -/

/-- Claim C5: when a prompt view is already open, `editor_prompt` fails
immediately: it returns ERR with a NULL answer and the editor is left
exactly as it was — in particular no new view is opened, whatever the
nested session would have done. -/
theorem c5_second_prompt_fails (e : editor)
    (session : editor → editor × Option String)
    (h : e.prompt.isSome = true) :
    editor_prompt e session = (e, .err, none) := by
  unfold editor_prompt
  simp [h]

/-- Concrete editor with an open prompt view for claim C5. -/
def c5_editor : editor :=
  { all_bviews := [⟨0, .prompt, none, none⟩], top_bviews := [0], active := some 0,
    active_edit := none, active_edit_root := none, prompt := some 0,
    next_bview_id := 1, macro_apply := none, macro_apply_input_index := 0,
    is_macro_recording := false, macro_record := none }

/-- Witness for claim C5 at a concrete editor whose prompt is open. -/
theorem c5_second_prompt_fails_witness :
    c5_editor.prompt.isSome = true ∧
    editor_prompt c5_editor (fun e2 => (e2, none)) = (c5_editor, .err, none) :=
  ⟨rfl, c5_second_prompt_fails c5_editor (fun e2 => (e2, none)) rfl⟩

/-! ## Claim C10: editor_set_active -/

/-- The membership scan agrees with the lookup by identity. -/
theorem bview_exists_eq_lookup_isSome (e : editor) (id : Nat) :
    editor_bview_exists e id = (lookup_bview e id).isSome := by
  unfold editor_bview_exists lookup_bview
  induction e.all_bviews with
  | nil => rfl
  | cons b bs ih =>
    by_cases hb : b.id == id <;> simp [List.any_cons, List.find?_cons, hb, ih]

/-- Claim C10: while a prompt is open `editor_set_active` returns ERR and
leaves the editor (in particular `active`) unchanged, even for an
existing view; a view missing from `all_bviews` is likewise rejected; and
only with no prompt open and the view present does it set `active` (and,
for EDIT views, `active_edit` and `active_edit_root`) and return OK. -/
theorem c10_set_active_spec (e : editor) (id : Nat) :
    (e.prompt.isSome = true → editor_set_active e id = (e, .err)) ∧
    (editor_bview_exists e id = false → editor_set_active e id = (e, .err)) ∧
    (∀ b : bview, e.prompt = none → lookup_bview e id = some b →
      editor_set_active e id =
        (if MLE_BVIEW_IS_EDIT b then
          { e with active := some id, active_edit := some id,
                   active_edit_root :=
                     some (bview_get_split_root { e with active := some id } b) }
        else { e with active := some id }, .ok)) := by
  refine ⟨?_, ?_, ?_⟩
  · intro h
    unfold editor_set_active
    by_cases hex : editor_bview_exists e id <;> simp [hex, h]
  · intro h
    unfold editor_set_active
    simp [h]
  · intro b hp hb
    have hex : editor_bview_exists e id = true := by
      rw [bview_exists_eq_lookup_isSome, hb]; rfl
    unfold editor_set_active
    simp [hex, hp, hb]

/-- Concrete editor (no prompt, one EDIT view) for claim C10. -/
def c10_editor : editor :=
  { all_bviews := [⟨3, .edit, none, none⟩], top_bviews := [3], active := none,
    active_edit := none, active_edit_root := none, prompt := none,
    next_bview_id := 4, macro_apply := none, macro_apply_input_index := 0,
    is_macro_recording := false, macro_record := none }

/-- Witness for claim C10 at a concrete editor and EDIT view. -/
theorem c10_set_active_spec_witness :
    editor_set_active c10_editor 3 =
      (if MLE_BVIEW_IS_EDIT ⟨3, .edit, none, none⟩ then
        { c10_editor with active := some 3, active_edit := some 3,
                          active_edit_root :=
                            some (bview_get_split_root
                              { c10_editor with active := some 3 }
                              ⟨3, .edit, none, none⟩) }
      else { c10_editor with active := some 3 }, .ok) :=
  (c10_set_active_spec c10_editor 3).2.2 ⟨3, .edit, none, none⟩ rfl rfl


/-! ## Claim C1: keymap-stack miss policy -/

/-- The lookup tail never touches `binding_node` or `need_more_input`. -/
theorem kbinding_node_find_frame (node : kbinding) (input : kinput) (lc : loop_context) :
    (kbinding_node_find node input lc).lc.binding_node = lc.binding_node ∧
    (kbinding_node_find node input lc).lc.need_more_input = lc.need_more_input := by
  unfold kbinding_node_find
  repeat' split
  all_goals simp_all

/-- Numeric finalization never touches `binding_node` or
`need_more_input`. -/
theorem kbinding_node_lookup_frame (node : kbinding) (input : kinput) (lc : loop_context) :
    (kbinding_node_lookup node input lc).lc.binding_node = lc.binding_node ∧
    (kbinding_node_lookup node input lc).lc.need_more_input = lc.need_more_input := by
  unfold kbinding_node_lookup
  repeat' split
  all_goals first
    | exact ⟨(kbinding_node_find_frame _ _ _).1, (kbinding_node_find_frame _ _ _).2⟩
    | simp_all

/-- The trie step never touches `binding_node` or `need_more_input`
(those belong to `_editor_get_command`). -/
theorem kbinding_node_frame (node : kbinding) (input : kinput) (lc : loop_context)
    (is_peek : Bool) :
    (_editor_get_kbinding_node node input lc is_peek).lc.binding_node = lc.binding_node ∧
    (_editor_get_kbinding_node node input lc is_peek).lc.need_more_input
      = lc.need_more_input := by
  unfold _editor_get_kbinding_node
  dsimp only
  split
  · exact ⟨rfl, rfl⟩
  split
  · split <;> (try dsimp only) <;> split <;> first
      | (split <;> exact ⟨rfl, rfl⟩)
      | exact ⟨(kbinding_node_lookup_frame _ _ _).1, (kbinding_node_lookup_frame _ _ _).2⟩
  · exact ⟨(kbinding_node_lookup_frame _ _ _).1, (kbinding_node_lookup_frame _ _ _).2⟩

/-- Re-clearing already-clear flags is the identity on the loop context. -/
theorem lc_update_eta (lc : loop_context) (h1 : lc.need_more_input = false)
    (h2 : lc.binding_node = none) :
    ({ lc with need_more_input := false, binding_node := none }) = lc := by
  cases lc
  simp_all

/-- A top-level miss at the head keymap consults the default command,
then fallthru, else reports unbound. -/
theorem get_command_loop_top_miss (input : kinput) (km : kmap) (rest : List kmap)
    (lc : loop_context) (sp : Option String)
    (hmiss : (_editor_get_kbinding_node km.bindings input lc false).binding = none) :
    get_command_loop input false (km :: rest) none true lc sp =
      (match km.default_funcref with
      | some d => ⟨(_editor_get_kbinding_node km.bindings input lc false).lc, sp, some d⟩
      | none =>
        if km.allow_fallthru then
          get_command_loop input false rest none true
            (_editor_get_kbinding_node km.bindings input lc false).lc sp
        else ⟨(_editor_get_kbinding_node km.bindings input lc false).lc, sp, none⟩) := by
  conv_lhs => unfold get_command_loop
  simp [hmiss, kbeq_refl]


/-- A miss while resumed exactly at the head keymap's root is treated as
a top-level miss (the source compares the node pointer with the root). -/
theorem get_command_loop_root_resumed_miss (input : kinput) (km : kmap)
    (rest : List kmap) (lc : loop_context) (sp : Option String)
    (hmiss : (_editor_get_kbinding_node km.bindings input lc false).binding = none) :
    get_command_loop input false (km :: rest) (some km.bindings) false lc sp =
      (match km.default_funcref with
      | some d => ⟨(_editor_get_kbinding_node km.bindings input lc false).lc, sp, some d⟩
      | none =>
        if km.allow_fallthru then
          get_command_loop input false rest none true
            (_editor_get_kbinding_node km.bindings input lc false).lc sp
        else ⟨(_editor_get_kbinding_node km.bindings input lc false).lc, sp, none⟩) := by
  conv_lhs => unfold get_command_loop
  simp [hmiss, kbeq_refl]

/-- A miss while resumed strictly below the head keymap's root is
unbound immediately. -/
theorem get_command_loop_mid_miss (input : kinput) (km : kmap) (rest : List kmap)
    (n : kbinding) (lc : loop_context) (sp : Option String)
    (hne : kbinding.beq n km.bindings = false)
    (hmiss : (_editor_get_kbinding_node n input lc false).binding = none) :
    get_command_loop input false (km :: rest) (some n) false lc sp =
      ⟨(_editor_get_kbinding_node n input lc false).lc, sp, none⟩ := by
  conv_lhs => unfold get_command_loop
  simp [hmiss, hne]

/-- Claim C1: for any keystroke whose trie step misses at the top level
of the current keymap (the walk starts at that keymap's root: null
`binding_node`, or a `binding_node` resumed exactly at the root), the
resolver consults, in order, the current keymap's default command
(returned if set), then — only if `allow_fallthru` is set — the next
keymap beneath on the stack, restarting at its top level, and otherwise
reports unbound.  A miss while resumed strictly below the current
keymap's root is unbound immediately, consulting neither the default nor
any lower keymap. -/
theorem c1_keymap_stack_policy (km : kmap) (rest : List kmap) (lc : loop_context)
    (sp : Option String) (input : kinput) :
    ((lc.binding_node = none ∨ lc.binding_node = some km.bindings) →
      (_editor_get_kbinding_node km.bindings input
          { lc with need_more_input := false, binding_node := none } false).binding
        = none →
      _editor_get_command (km :: rest) lc sp input false =
        (match km.default_funcref with
         | some d =>
             ⟨(_editor_get_kbinding_node km.bindings input
                 { lc with need_more_input := false, binding_node := none } false).lc,
              sp, some d⟩
         | none =>
           if km.allow_fallthru then
             _editor_get_command rest
               (_editor_get_kbinding_node km.bindings input
                 { lc with need_more_input := false, binding_node := none } false).lc
               sp input false
           else
             ⟨(_editor_get_kbinding_node km.bindings input
                 { lc with need_more_input := false, binding_node := none } false).lc,
              sp, none⟩))
    ∧
    (∀ n : kbinding, lc.binding_node = some n →
      kbinding.beq n km.bindings = false →
      (_editor_get_kbinding_node n input
          { lc with need_more_input := false, binding_node := none } false).binding
        = none →
      _editor_get_command (km :: rest) lc sp input false =
        ⟨(_editor_get_kbinding_node n input
            { lc with need_more_input := false, binding_node := none } false).lc,
         sp, none⟩) := by
  constructor
  · intro htop hmiss
    have hframe := kbinding_node_frame km.bindings input
      { lc with need_more_input := false, binding_node := none } false
    have hcmd : _editor_get_command rest
        (_editor_get_kbinding_node km.bindings input
          { lc with need_more_input := false, binding_node := none } false).lc sp input false
      = get_command_loop input false rest none true
          (_editor_get_kbinding_node km.bindings input
            { lc with need_more_input := false, binding_node := none } false).lc sp := by
      have h1 : (_editor_get_kbinding_node km.bindings input
          { lc with need_more_input := false, binding_node := none } false).lc.binding_node
          = none := hframe.1
      have h2 : (_editor_get_kbinding_node km.bindings input
          { lc with need_more_input := false, binding_node := none } false).lc.need_more_input
          = false := hframe.2
      unfold _editor_get_command
      dsimp only
      rw [lc_update_eta _ h2 h1, h1]
      rfl
    have hkey : _editor_get_command (km :: rest) lc sp input false
        = get_command_loop input false (km :: rest) lc.binding_node lc.binding_node.isNone
            { lc with need_more_input := false, binding_node := none } sp := rfl
    rcases htop with h | h
    · rw [hkey, h]
      rw [show (none : Option kbinding).isNone = true from rfl]
      rw [get_command_loop_top_miss input km rest _ sp hmiss, ← hcmd]
    · rw [hkey, h]
      rw [show (some km.bindings).isNone = false from rfl]
      rw [get_command_loop_root_resumed_miss input km rest _ sp hmiss, ← hcmd]
  · intro n h hne hmiss
    have hkey : _editor_get_command (km :: rest) lc sp input false
        = get_command_loop input false (km :: rest) lc.binding_node lc.binding_node.isNone
            { lc with need_more_input := false, binding_node := none } sp := rfl
    rw [hkey, h]
    rw [show (some n).isNone = false from rfl]
    exact get_command_loop_mid_miss input km rest n _ sp hne hmiss

/-- Concrete keymap A for claim C1: binds only `y`, allows fallthru, no
default. -/
def c1_A : kmap :=
  ⟨"A", .mk [(⟨0, 121, 0⟩, .mk [] (some "cmdA") none)] none none, none, true⟩

/-- Concrete keymap B for claim C1: binds `x`, has a default command. -/
def c1_B : kmap :=
  ⟨"B", .mk [(⟨0, 120, 0⟩, .mk [] (some "cmdB") none)] none none, some "insert", false⟩

/-- Concrete keystroke `x`, unbound in A and bound to `cmdB` in B. -/
def c1_x : kinput := ⟨0, 120, 0⟩

/-- Witness for claim C1: `x` misses at the top of A, falls through to B
and resolves to `cmdB` (the fallthru-monotonicity instance). -/
theorem c1_keymap_stack_policy_witness :
    (_editor_get_command [c1_A, c1_B] loop_context.init none c1_x false).funcref
      = some "cmdB" := by
  have h := (c1_keymap_stack_policy c1_A [c1_B] loop_context.init none c1_x).1
    (Or.inl rfl) rfl
  rw [h]
  decide


/-! ## Claims C2 and C6: numeric chords -/

/-- Numeric accumulation: a digit at a node whose `NUMERIC` edge is
already in flight is appended to the numeric buffer (capacity
permitting) and the resolver asks for more input on the same node. -/
theorem kbinding_node_digit (node : kbinding) (d : kinput) (lc : loop_context)
    (hd : isDigitCh d.ch = true)
    (hnn : lc.numeric_node.isSome = true)
    (hlen : lc.numeric.length < MLE_LOOP_CTX_MAX_NUMERIC_LEN) :
    _editor_get_kbinding_node node d lc false =
      ⟨{ lc with numeric := lc.numeric ++ [d.ch] }, some node, true⟩ := by
  unfold _editor_get_kbinding_node
  dsimp only
  have h2 : lc.numeric_node.isNone = false := by
    cases h : lc.numeric_node <;> simp_all
  simp [hd, h2, hnn, hlen]

/-- One committing resolution of an in-flight digit: need-more-input,
re-anchored at the same node. -/
theorem get_command_digit (km : kmap) (rest : List kmap) (T : kbinding)
    (lc : loop_context) (sp : Option String) (d : kinput)
    (hd : isDigitCh d.ch = true)
    (hbn : lc.binding_node = some T)
    (hnn : lc.numeric_node.isSome = true)
    (hlen : lc.numeric.length < MLE_LOOP_CTX_MAX_NUMERIC_LEN) :
    _editor_get_command (km :: rest) lc sp d false =
      ⟨{ lc with need_more_input := true, binding_node := some T,
                 numeric := lc.numeric ++ [d.ch] }, sp, none⟩ := by
  unfold _editor_get_command
  dsimp only
  rw [hbn]
  conv_lhs => unfold get_command_loop
  dsimp only
  rw [show (some T).isNone = false from rfl]
  rw [show (if (false = true) then km.bindings else (some T).getD km.bindings) = T by simp]
  rw [kbinding_node_digit T d { lc with need_more_input := false, binding_node := none } hd hnn hlen]
  simp


/-- The first digit of a chord: the `NUMERIC` edge is looked up and
cached in `numeric_node`, the digit accumulated, more input requested. -/
theorem kbinding_node_first_digit (node : kbinding) (d : kinput) (lc : loop_context)
    (hd : isDigitCh d.ch = true)
    (hnn : lc.numeric_node = none)
    (hfind : (hash_find node.children MLE_KINPUT_NUMERIC).isSome = true)
    (hlen : lc.numeric.length < MLE_LOOP_CTX_MAX_NUMERIC_LEN) :
    _editor_get_kbinding_node node d lc false =
      ⟨{ lc with numeric := lc.numeric ++ [d.ch],
                 numeric_node := hash_find node.children MLE_KINPUT_NUMERIC },
       some node, true⟩ := by
  unfold _editor_get_kbinding_node
  dsimp only
  simp [hd, hnn, hfind, hlen]

/-- One committing resolution of the first digit of a numeric chord. -/
theorem get_command_first_digit (km : kmap) (rest : List kmap) (T : kbinding)
    (lc : loop_context) (sp : Option String) (d : kinput)
    (hd : isDigitCh d.ch = true)
    (hbn : lc.binding_node = some T)
    (hnn : lc.numeric_node = none)
    (hfind : (hash_find T.children MLE_KINPUT_NUMERIC).isSome = true)
    (hlen : lc.numeric.length < MLE_LOOP_CTX_MAX_NUMERIC_LEN) :
    _editor_get_command (km :: rest) lc sp d false =
      ⟨{ lc with need_more_input := true, binding_node := some T,
                 numeric := lc.numeric ++ [d.ch],
                 numeric_node := hash_find T.children MLE_KINPUT_NUMERIC }, sp, none⟩ := by
  unfold _editor_get_command
  dsimp only
  rw [hbn]
  conv_lhs => unfold get_command_loop
  dsimp only
  rw [show (some T).isNone = false from rfl]
  rw [show (if (false = true) then km.bindings else (some T).getD km.bindings) = T by simp]
  rw [kbinding_node_first_digit T d { lc with need_more_input := false, binding_node := none } hd hnn hfind hlen]
  simp

/-- Numeric finalization: on a non-digit input with a non-empty buffer,
the buffer is parsed and pushed, and resolution continues from the
`NUMERIC` child's subtree with the current input (here: an exact hit). -/
theorem kbinding_node_finalize (node sub lf : kbinding) (w : kinput) (lc : loop_context)
    (hw : isDigitCh w.ch = false)
    (hne : lc.numeric ≠ [])
    (hnn : lc.numeric_node = some sub)
    (hcap : lc.numeric_params.length < MLE_LOOP_CTX_MAX_NUMERIC_PARAMS)
    (hfind : hash_find sub.children w = some lf) :
    _editor_get_kbinding_node node w lc false =
      ⟨{ lc with numeric := [], numeric_node := none,
                 numeric_params := lc.numeric_params ++ [parse_decimal lc.numeric] },
       some lf, false⟩ := by
  have hpos : 0 < lc.numeric.length := List.length_pos.mpr hne
  unfold _editor_get_kbinding_node kbinding_node_lookup kbinding_node_find
  dsimp only
  simp [hw, hnn, hcap, hfind, hpos]

/-- One committing resolution of the keystroke that finalizes a numeric
chord via an exact leaf under the `NUMERIC` child. -/
theorem get_command_finalize (km : kmap) (rest : List kmap) (T sub lf : kbinding)
    (lc : loop_context) (sp : Option String) (w : kinput)
    (hw : isDigitCh w.ch = false)
    (hbn : lc.binding_node = some T)
    (hne : lc.numeric ≠ [])
    (hnn : lc.numeric_node = some sub)
    (hcap : lc.numeric_params.length < MLE_LOOP_CTX_MAX_NUMERIC_PARAMS)
    (hfind : hash_find sub.children w = some lf)
    (hlf : lf.funcref.isSome = true) :
    _editor_get_command (km :: rest) lc sp w false =
      ⟨{ lc with need_more_input := false, binding_node := none, numeric := [],
                 numeric_node := none,
                 numeric_params := lc.numeric_params ++ [parse_decimal lc.numeric] },
       lf.static_param, lf.funcref⟩ := by
  unfold _editor_get_command
  dsimp only
  rw [hbn]
  conv_lhs => unfold get_command_loop
  dsimp only
  rw [show (some T).isNone = false from rfl]
  rw [show (if (false = true) then km.bindings else (some T).getD km.bindings) = T by simp]
  rw [kbinding_node_finalize T sub lf w { lc with need_more_input := false, binding_node := none } hw hne hnn hcap hfind]
  simp [hlf]


/-- Event-loop view of an in-flight digit: state carried, no command. -/
theorem loop_step_digit (km : kmap) (rest : List kmap) (T : kbinding)
    (lc : loop_context) (d : kinput)
    (hd : isDigitCh d.ch = true)
    (hbn : lc.binding_node = some T)
    (hnn : lc.numeric_node.isSome = true)
    (hlen : lc.numeric.length < MLE_LOOP_CTX_MAX_NUMERIC_LEN) :
    loop_step (km :: rest) lc d =
      ({ lc with need_more_input := true, binding_node := some T,
                 numeric := lc.numeric ++ [d.ch] },
       { lc with need_more_input := true, binding_node := some T,
                 numeric := lc.numeric ++ [d.ch] },
       none, none) := by
  unfold loop_step
  rw [get_command_digit km rest T lc none d hd hbn hnn hlen]
  rfl

/-- Event-loop view of a chord's first digit. -/
theorem loop_step_first_digit (km : kmap) (rest : List kmap) (T : kbinding)
    (lc : loop_context) (d : kinput)
    (hd : isDigitCh d.ch = true)
    (hbn : lc.binding_node = some T)
    (hnn : lc.numeric_node = none)
    (hfind : (hash_find T.children MLE_KINPUT_NUMERIC).isSome = true)
    (hlen : lc.numeric.length < MLE_LOOP_CTX_MAX_NUMERIC_LEN) :
    loop_step (km :: rest) lc d =
      ({ lc with need_more_input := true, binding_node := some T,
                 numeric := lc.numeric ++ [d.ch],
                 numeric_node := hash_find T.children MLE_KINPUT_NUMERIC },
       { lc with need_more_input := true, binding_node := some T,
                 numeric := lc.numeric ++ [d.ch],
                 numeric_node := hash_find T.children MLE_KINPUT_NUMERIC },
       none, none) := by
  unfold loop_step
  rw [get_command_first_digit km rest T lc none d hd hbn hnn hfind hlen]
  rfl

/-- Event-loop view of the finalizing keystroke: the command executes
with the parsed count delivered in `numeric_params`. -/
theorem loop_step_finalize (km : kmap) (rest : List kmap) (T sub lf : kbinding)
    (lc : loop_context) (w : kinput) (c : String)
    (hw : isDigitCh w.ch = false)
    (hbn : lc.binding_node = some T)
    (hne : lc.numeric ≠ [])
    (hnn : lc.numeric_node = some sub)
    (hcap : lc.numeric_params.length < MLE_LOOP_CTX_MAX_NUMERIC_PARAMS)
    (hfind : hash_find sub.children w = some lf)
    (hlf : lf.funcref = some c) :
    (loop_step (km :: rest) lc w).2 =
      ({ lc with need_more_input := false, binding_node := none, numeric := [],
                 numeric_node := none,
                 numeric_params := lc.numeric_params ++ [parse_decimal lc.numeric] },
       lf.static_param, some c) := by
  unfold loop_step
  rw [get_command_finalize km rest T sub lf lc none w hw hbn hne hnn hcap hfind
    (by simp [hlf])]
  dsimp only
  rw [hlf]

/-- Feeding further digits one per loop turn extends the numeric buffer
and touches nothing else in the loop context. -/
theorem loop_fold_digits (km : kmap) (rest : List kmap) (T sub : kbinding) :
    ∀ (ds : List kinput) (lc : loop_context),
      (∀ d ∈ ds, isDigitCh d.ch = true) →
      lc.binding_node = some T → lc.numeric_node = some sub →
      lc.need_more_input = true →
      lc.numeric.length + ds.length ≤ MLE_LOOP_CTX_MAX_NUMERIC_LEN →
      List.foldl (fun l i => (loop_step (km :: rest) l i).1) lc ds =
        { lc with numeric := lc.numeric ++ ds.map kinput.ch }
  | [], lc, _, _, _, _, _ => by simp
  | d :: ds, lc, hds, hbn, hnn, hnmi, hlen => by
    rw [List.foldl_cons]
    have hlen1 : lc.numeric.length < MLE_LOOP_CTX_MAX_NUMERIC_LEN := by
      simp only [List.length_cons] at hlen
      omega
    rw [loop_step_digit km rest T lc d (hds d (by simp)) hbn (by simp [hnn]) hlen1]
    dsimp only
    rw [loop_fold_digits km rest T sub ds
      { lc with need_more_input := true, binding_node := some T,
                numeric := lc.numeric ++ [d.ch] }
      (fun x hx => hds x (by simp [hx])) rfl hnn rfl
      (by simp only [List.length_cons] at hlen
          simp
          omega)]
    simp [hbn, hnmi]

/-- A keystroke sequence decomposes into its prefix folded through the
loop and one final step. -/
theorem loop_steps_append_last (stack : List kmap) :
    ∀ (is_ : List kinput) (lc : loop_context) (w : kinput),
      loop_steps stack lc (is_ ++ [w]) =
        loop_step stack (List.foldl (fun l i => (loop_step stack l i).1) lc is_) w
  | [], lc, w => by simp [loop_steps]
  | [i], lc, w => by simp [loop_steps]
  | i :: j :: is_, lc, w => by
    have ih := loop_steps_append_last stack (j :: is_) (loop_step stack lc i).1 w
    simp only [List.cons_append] at ih ⊢
    rw [List.foldl_cons, ← ih]
    rfl


/-- Claim C2 (amended): for every chord of digits `ds` entered at a node
with a `NUMERIC` edge, followed by a non-digit keystroke that completes a
binding in the `NUMERIC` child's subtree via an EXACT edge, the executed
command is delivered the numeric parameter `parse_decimal ds` (pushed
onto `numeric_params`, buffer cleared), and the wildcard-parameter vector
is unchanged from before the chord (the conclusion leaves
`wildcard_params` untouched).  The amendment: a completion via the
WILDCARD edge additionally appends the completing keystroke's codepoint,
see the counterexample. -/
theorem c2_numeric_chord_delivery (km : kmap) (rest : List kmap)
    (T sub lf : kbinding) (lc0 : loop_context) (ds : List kinput) (w : kinput)
    (c : String)
    (hbn : lc0.binding_node = some T)
    (hfind : hash_find T.children MLE_KINPUT_NUMERIC = some sub)
    (hbuf : lc0.numeric = [])
    (hnn : lc0.numeric_node = none)
    (hcap : lc0.numeric_params.length < MLE_LOOP_CTX_MAX_NUMERIC_PARAMS)
    (hlen : ds.length ≤ MLE_LOOP_CTX_MAX_NUMERIC_LEN)
    (hne : ds ≠ [])
    (hds : ∀ d ∈ ds, isDigitCh d.ch = true)
    (hw : isDigitCh w.ch = false)
    (hleaf : hash_find sub.children w = some lf)
    (hlf : lf.funcref = some c) :
    (loop_steps (km :: rest) lc0 (ds ++ [w])).2 =
      ({ lc0 with need_more_input := false, binding_node := none, numeric := [],
                  numeric_node := none,
                  numeric_params := lc0.numeric_params
                    ++ [parse_decimal (ds.map kinput.ch)] },
       lf.static_param, some c) := by
  obtain ⟨d, ds', rfl⟩ := List.exists_cons_of_ne_nil hne
  rw [loop_steps_append_last]
  rw [List.foldl_cons]
  have hlen1 : lc0.numeric.length < MLE_LOOP_CTX_MAX_NUMERIC_LEN := by
    rw [hbuf]
    simp only [List.length_cons] at hlen
    simp
    omega
  rw [loop_step_first_digit km rest T lc0 d (hds d (by simp)) hbn hnn
    (by rw [hfind]; rfl) hlen1]
  dsimp only
  rw [loop_fold_digits km rest T sub ds'
    { lc0 with need_more_input := true, binding_node := some T,
               numeric := lc0.numeric ++ [d.ch],
               numeric_node := hash_find T.children MLE_KINPUT_NUMERIC }
    (fun x hx => hds x (by simp [hx])) rfl (by rw [hfind]) rfl
    (by rw [hbuf]
        simp only [List.length_cons] at hlen
        simp
        omega)]
  rw [loop_step_finalize km rest T sub lf _ w c hw rfl
    (by simp)
    (by dsimp only; rw [hfind])
    (by simp [hcap])
    hleaf hlf]
  rw [hbuf]
  simp


/-- The digit after a full numeric buffer: the trie step returns NULL
without touching the loop context (the buffer stays full). -/
theorem kbinding_node_digit_overflow (node : kbinding) (d : kinput) (lc : loop_context)
    (hd : isDigitCh d.ch = true)
    (hnn : lc.numeric_node.isSome = true)
    (hlen : ¬ lc.numeric.length < MLE_LOOP_CTX_MAX_NUMERIC_LEN) :
    _editor_get_kbinding_node node d lc false = ⟨lc, none, false⟩ := by
  unfold _editor_get_kbinding_node
  dsimp only
  have h2 : lc.numeric_node.isNone = false := by
    cases h : lc.numeric_node <;> simp_all
  simp [hd, h2, hnn, hlen]

/-- Overflow digit while accumulating below the keymap root: unbound,
with `binding_node` cleared by the entry reset. -/
theorem get_command_digit_overflow_midtrie (km : kmap) (rest : List kmap)
    (T : kbinding) (lc : loop_context) (sp : Option String) (d : kinput)
    (hd : isDigitCh d.ch = true)
    (hbn : lc.binding_node = some T)
    (hnn : lc.numeric_node.isSome = true)
    (hlen : ¬ lc.numeric.length < MLE_LOOP_CTX_MAX_NUMERIC_LEN)
    (hne : kbinding.beq T km.bindings = false) :
    _editor_get_command (km :: rest) lc sp d false =
      ⟨{ lc with need_more_input := false, binding_node := none }, sp, none⟩ := by
  unfold _editor_get_command
  dsimp only
  rw [hbn]
  conv_lhs => unfold get_command_loop
  dsimp only
  rw [show (some T).isNone = false from rfl]
  rw [show (if (false = true) then km.bindings else (some T).getD km.bindings) = T by simp]
  rw [kbinding_node_digit_overflow T d { lc with need_more_input := false, binding_node := none } hd hnn hlen]
  simp [hne]

/-- Overflow digit while accumulating at the keymap root: the miss is a
top-level miss and falls back to the keymap's default command. -/
theorem get_command_digit_overflow_root (km : kmap) (rest : List kmap)
    (lc : loop_context) (sp : Option String) (d : kinput) (dflt : String)
    (hd : isDigitCh d.ch = true)
    (hbn : lc.binding_node = some km.bindings)
    (hnn : lc.numeric_node.isSome = true)
    (hlen : ¬ lc.numeric.length < MLE_LOOP_CTX_MAX_NUMERIC_LEN)
    (hdef : km.default_funcref = some dflt) :
    _editor_get_command (km :: rest) lc sp d false =
      ⟨{ lc with need_more_input := false, binding_node := none }, sp, some dflt⟩ := by
  unfold _editor_get_command
  dsimp only
  rw [hbn]
  conv_lhs => unfold get_command_loop
  dsimp only
  rw [show (some km.bindings).isNone = false from rfl]
  rw [show (if (false = true) then km.bindings
        else (some km.bindings).getD km.bindings) = km.bindings by simp]
  rw [kbinding_node_digit_overflow km.bindings d
    { lc with need_more_input := false, binding_node := none } hd hnn hlen]
  simp [kbeq_refl, hdef]

/-- Claim C6 (amended): the digit that fills the numeric buffer to
exactly `MLE_LOOP_CTX_MAX_NUMERIC_LEN` is accepted (need-more-input, no
command); the next digit is rejected — the trie step misses.  If the
accumulation node is not the current keymap's root, resolution returns
unbound, the pending chord aborts with `binding_node` cleared and no
command executes.  The amendment: when accumulating at the keymap root
itself, the overflow miss is treated as a top-level miss, so a default
command (if set) executes for that keystroke, see the counterexample. -/
theorem c6_numeric_boundary (km : kmap) (rest : List kmap) (T sub : kbinding)
    (lc : loop_context) (d : kinput)
    (hd : isDigitCh d.ch = true)
    (hbn : lc.binding_node = some T)
    (hnn : lc.numeric_node = some sub) :
    (lc.numeric.length + 1 = MLE_LOOP_CTX_MAX_NUMERIC_LEN →
      loop_step (km :: rest) lc d =
        ({ lc with need_more_input := true, binding_node := some T,
                   numeric := lc.numeric ++ [d.ch] },
         { lc with need_more_input := true, binding_node := some T,
                   numeric := lc.numeric ++ [d.ch] },
         none, none) ∧
      (lc.numeric ++ [d.ch]).length = MLE_LOOP_CTX_MAX_NUMERIC_LEN)
    ∧
    (lc.numeric.length = MLE_LOOP_CTX_MAX_NUMERIC_LEN →
      kbinding.beq T km.bindings = false →
      loop_step (km :: rest) lc d =
        ({ lc with need_more_input := false, binding_node := none },
         { lc with need_more_input := false, binding_node := none },
         none, none))
    ∧
    (lc.numeric.length = MLE_LOOP_CTX_MAX_NUMERIC_LEN →
      T = km.bindings →
      ∀ dflt : String, km.default_funcref = some dflt →
        (loop_step (km :: rest) lc d).2.2.2 = some dflt) := by
  refine ⟨?_, ?_, ?_⟩
  · intro hfits
    constructor
    · exact loop_step_digit km rest T lc d hd hbn (by rw [hnn]; rfl) (by omega)
    · simp
      omega
  · intro hfull hne
    unfold loop_step
    rw [get_command_digit_overflow_midtrie km rest T lc none d hd hbn
      (by rw [hnn]; rfl) (by omega) hne]
    rfl
  · intro hfull hT dflt hdef
    unfold loop_step
    rw [get_command_digit_overflow_root km rest lc none d dflt hd (hT ▸ hbn)
      (by rw [hnn]; rfl) (by omega) hdef]


/-! ## Claim C9: tab-completion cycling -/

/-- Raw compgen output listing the candidates one per line, each line
newline-terminated (the spec: "a trailing newline terminator is
assumed"). -/
def joinNl (ts : List (List Char)) : List Char :=
  ts.foldr (fun t acc => t ++ '\n' :: acc) []

/-- One line of raw output. -/
theorem joinNl_cons (t : List Char) (ts : List (List Char)) :
    joinNl (t :: ts) = t ++ '\n' :: joinNl ts := rfl

/-- The `strchr` loop counts exactly one newline per candidate. -/
theorem count_nl_joinNl : ∀ ts : List (List Char), (∀ t ∈ ts, '\n' ∉ t) →
    count_nl (joinNl ts) = ts.length
  | [], _ => rfl
  | t :: ts, h => by
    have ht : '\n' ∉ t := h t (by simp)
    have ih := count_nl_joinNl ts (fun x hx => h x (by simp [hx]))
    rw [joinNl_cons]
    unfold count_nl at ih ⊢
    rw [List.count_append, List.count_cons_self, List.count_eq_zero.mpr ht, ih]
    simp

/-- Splitting a newline-free field off the front of the raw output. -/
theorem split_nl_append (u : List Char) : ∀ t : List Char, '\n' ∉ t →
    split_nl (t ++ '\n' :: u) = t :: split_nl u
  | [], _ => by simp [split_nl]
  | c :: t, h => by
    have hc : ¬ (c = '\n') := by
      intro hcc
      exact h (by simp [hcc])
    have ht : '\n' ∉ t := by
      intro hmem
      exact h (by simp [hmem])
    have ih := split_nl_append u t ht
    simp only [List.cons_append]
    conv_lhs => unfold split_nl
    rw [if_neg hc, ih]

/-- The raw output splits into the candidates plus one trailing empty
field. -/
theorem split_nl_joinNl : ∀ ts : List (List Char), (∀ t ∈ ts, '\n' ∉ t) →
    split_nl (joinNl ts) = ts ++ [[]]
  | [], _ => rfl
  | t :: ts, h => by
    rw [joinNl_cons, split_nl_append _ t (h t (by simp)),
      split_nl_joinNl ts (fun x hx => h x (by simp [hx]))]
    rfl

/-- The `strtok` walk over well-formed raw output yields exactly the
candidate list. -/
theorem strtok_nl_joinNl (ts : List (List Char))
    (h : ∀ t ∈ ts, t ≠ [] ∧ '\n' ∉ t) :
    strtok_nl (joinNl ts) = ts := by
  unfold strtok_nl
  rw [split_nl_joinNl ts (fun x hx => (h x hx).2), List.filter_append]
  have h1 : ts.filter (fun t => !t.isEmpty) = ts := by
    apply List.filter_eq_self.mpr
    intro a ha
    simp [List.isEmpty_iff]
    exact (h a ha).1
  rw [h1]
  simp

/-- In-bounds indexing agrees with `getD`. -/
theorem list_get?_getD : ∀ (l : List (List Char)) (n : Nat), n < l.length →
    l.get? n = some (l.getD n [])
  | a :: l, 0, _ => rfl
  | a :: l, n + 1, h => list_get?_getD l n (by simpa using h)


/-- The first tab press of a streak snapshots the stem and selects
candidate 0. -/
theorem tab_press_first (compgen : List Char → List Char) (cands : List (List Char))
    (s : List Char) (lc : loop_context)
    (hcg : compgen s = joinNl cands)
    (hne : cands ≠ [])
    (hwf : ∀ t ∈ cands, t ≠ [] ∧ '\n' ∉ t)
    (hlast : (lc.last_cmd == some tab_complete_cmd) = false)
    (hlen : s.length < MLE_LOOP_CTX_MAX_COMPLETE_TERM_SIZE) :
    _editor_prompt_input_complete compgen lc s =
      ({ lc with tab_complete_term := s, tab_complete_index := 0 },
       cands.getD 0 []) := by
  have hpos : 0 < cands.length := List.length_pos.mpr hne
  have hcount := count_nl_joinNl cands (fun x hx => (hwf x hx).2)
  have htok := strtok_nl_joinNl cands hwf
  have hget := list_get?_getD cands 0 hpos
  have hn1 : ¬ cands.length < 1 := by omega
  unfold _editor_prompt_input_complete
  rw [hlast]
  simp only [Bool.false_eq_true, if_false, if_pos hlen]
  rw [hcg, hcount, if_neg hn1, htok, Nat.zero_mod, hget]

/-- Every later press of a streak increments the index and selects
candidate `index mod N`. -/
theorem tab_press_subsequent (compgen : List Char → List Char)
    (cands : List (List Char)) (s : List Char) (lc : loop_context) (buf : List Char)
    (hcg : compgen s = joinNl cands)
    (hne : cands ≠ [])
    (hwf : ∀ t ∈ cands, t ≠ [] ∧ '\n' ∉ t)
    (hlast : lc.last_cmd = some tab_complete_cmd)
    (hterm : lc.tab_complete_term = s) :
    _editor_prompt_input_complete compgen lc buf =
      ({ lc with tab_complete_index := lc.tab_complete_index + 1 },
       cands.getD ((lc.tab_complete_index + 1) % cands.length) []) := by
  have hpos : 0 < cands.length := List.length_pos.mpr hne
  have hcount := count_nl_joinNl cands (fun x hx => (hwf x hx).2)
  have htok := strtok_nl_joinNl cands hwf
  have hget := list_get?_getD cands ((lc.tab_complete_index + 1) % cands.length)
    (Nat.mod_lt _ hpos)
  have hn1 : ¬ cands.length < 1 := by omega
  unfold _editor_prompt_input_complete
  rw [hlast]
  simp only [beq_self_eq_true, if_pos]
  rw [hterm, hcg, hcount, if_neg hn1, htok, hget]


/-- Invariant of a completion streak: after `j` further presses the
buffer holds candidate `(index + j) mod N`. -/
theorem tab_streak_aux (compgen : List Char → List Char) (cands : List (List Char))
    (s : List Char)
    (hcg : compgen s = joinNl cands) (hne : cands ≠ [])
    (hwf : ∀ t ∈ cands, t ≠ [] ∧ '\n' ∉ t) :
    ∀ (j : Nat) (lc : loop_context) (buf : List Char),
      lc.last_cmd = some tab_complete_cmd →
      lc.tab_complete_term = s →
      (tab_streak compgen j (lc, buf)).2 =
        (if j = 0 then buf
         else cands.getD ((lc.tab_complete_index + j) % cands.length) [])
  | 0, lc, buf, _, _ => by simp [tab_streak]
  | j + 1, lc, buf, hlast, hterm => by
    unfold tab_streak
    rw [tab_press_subsequent compgen cands s lc buf hcg hne hwf hlast hterm]
    dsimp only
    rw [tab_streak_aux compgen cands s hcg hne hwf j
      { lc with last_cmd := some tab_complete_cmd,
                tab_complete_index := lc.tab_complete_index + 1 }
      (cands.getD ((lc.tab_complete_index + 1) % cands.length) []) rfl hterm]
    by_cases hj : j = 0
    · simp [hj]
    · simp only [hj, if_false, Nat.add_eq, if_neg (Nat.succ_ne_zero j)]
      congr 2
      omega


/-- Claim C9 (amended): with a well-formed candidate list of size N, the
k-th press of a tab streak (k ≥ 1) sets the prompt buffer to candidate
`(k-1) mod N`; hence the N-th press yields the LAST candidate and the
cycle has period N (press N+1 equals press 1).  The amendment: the
original input `s` itself is not restored by the N-th press unless it
equals that candidate, see the counterexample. -/
theorem c9_tab_cycle (compgen : List Char → List Char) (cands : List (List Char))
    (s : List Char) (lc0 : loop_context) (k : Nat)
    (hcg : compgen s = joinNl cands)
    (hne : cands ≠ [])
    (hwf : ∀ t ∈ cands, t ≠ [] ∧ '\n' ∉ t)
    (hlast : (lc0.last_cmd == some tab_complete_cmd) = false)
    (hlen : s.length < MLE_LOOP_CTX_MAX_COMPLETE_TERM_SIZE)
    (hk : 1 ≤ k) :
    (tab_streak compgen k (lc0, s)).2 = cands.getD ((k - 1) % cands.length) [] := by
  obtain ⟨j, rfl⟩ : ∃ j, k = j + 1 := ⟨k - 1, by omega⟩
  unfold tab_streak
  rw [tab_press_first compgen cands s lc0 hcg hne hwf hlast hlen]
  dsimp only
  rw [tab_streak_aux compgen cands s hcg hne hwf j
    { lc0 with tab_complete_term := s, tab_complete_index := 0,
               last_cmd := some tab_complete_cmd }
    (cands.getD 0 []) rfl rfl]
  by_cases hj : j = 0
  · simp [hj]
  · simp only [hj, if_false, if_neg hj]
    congr 2
    omega


/-- Concrete trie for claim C2: `## u → cmd_move_relative("up")`. -/
def c2_leaf : kbinding := .mk [] (some "cmd_move_relative") (some "up")
def c2_sub : kbinding := .mk [(⟨0, 117, 0⟩, c2_leaf)] none none
def c2_root : kbinding := .mk [(MLE_KINPUT_NUMERIC, c2_sub)] none none
def c2_km : kmap := ⟨"c2", c2_root, none, false⟩
def c2_lc0 : loop_context := { loop_context.init with binding_node := some c2_root }
def c2_ds : List kinput := [⟨0, 49, 0⟩, ⟨0, 50, 0⟩]
def c2_w : kinput := ⟨0, 117, 0⟩

/-- Witness for the amended claim C2: the chord `1 2 u` against
`## u → cmd_move_relative("up")` delivers numeric parameter 12 with no
wildcard capture. -/
theorem c2_numeric_chord_delivery_witness :
    (loop_steps [c2_km] c2_lc0 (c2_ds ++ [c2_w])).2 =
      ({ c2_lc0 with need_more_input := false, binding_node := none, numeric := [],
                     numeric_node := none,
                     numeric_params := c2_lc0.numeric_params
                       ++ [parse_decimal (c2_ds.map kinput.ch)] },
       c2_leaf.static_param, some "cmd_move_relative") :=
  c2_numeric_chord_delivery c2_km [] c2_root c2_sub c2_leaf c2_lc0 c2_ds c2_w
    "cmd_move_relative" rfl rfl rfl rfl (by decide) (by decide) (by decide)
    (by decide) (by decide) rfl rfl

def c2w_leaf : kbinding := .mk [] (some "cmd_move_until") none
def c2w_sub : kbinding := .mk [(MLE_KINPUT_WILDCARD, c2w_leaf)] none none
def c2w_km : kmap := ⟨"c2w", .mk [(MLE_KINPUT_NUMERIC, c2w_sub)] none none, none, false⟩
def c2w_inputs : List kinput := [⟨0, 49, 0⟩, ⟨0, 50, 0⟩, ⟨0, 117, 0⟩]

/-- Claim C2 as stated is false: in a `## **` binding the completing
keystroke matches the WILDCARD edge, so the chord `1 2 u` delivers
numeric parameter 12 but ALSO appends codepoint 117 to the
wildcard-parameter vector, which therefore differs from before the
chord. -/
theorem c2_wildcard_completion_counterexample :
    ((loop_steps [c2w_km] loop_context.init c2w_inputs).2.2.2 = some "cmd_move_until")
    ∧ ((loop_steps [c2w_km] loop_context.init c2w_inputs).2.1.numeric_params = [12])
    ∧ (loop_context.init.wildcard_params = [])
    ∧ ((loop_steps [c2w_km] loop_context.init c2w_inputs).2.1.wildcard_params = [117]) := by
  decide

/-- Concrete trie for claim C6: a `NUMERIC` edge one level below the
root (`M-y ##`-style). -/
def c6_leaf : kbinding := .mk [] (some "cmd_count") none
def c6_T : kbinding := .mk [(MLE_KINPUT_NUMERIC, c6_leaf)] none none
def c6_root : kbinding := .mk [(⟨8, 121, 0⟩, c6_T)] none none
def c6_km : kmap := ⟨"c6", c6_root, some "cmd_insert_data", false⟩
def c6_d : kinput := ⟨0, 53, 0⟩
def c6_lc19 : loop_context :=
  { loop_context.init with binding_node := some c6_T, numeric_node := some c6_leaf,
                           numeric := List.replicate 19 53 }
def c6_lc20 : loop_context :=
  { loop_context.init with binding_node := some c6_T, numeric_node := some c6_leaf,
                           numeric := List.replicate 20 53 }

/-- Witness for the amended claim C6 at the boundary: the 20th digit is
accepted and leaves the buffer at the maximum; the 21st digit (below the
root) is unbound, aborts the chord and runs no command. -/
theorem c6_numeric_boundary_witness :
    ((loop_step [c6_km] c6_lc19 c6_d).1.numeric.length = MLE_LOOP_CTX_MAX_NUMERIC_LEN
      ∧ (loop_step [c6_km] c6_lc19 c6_d).1.need_more_input = true
      ∧ (loop_step [c6_km] c6_lc19 c6_d).2.2.2 = none)
    ∧ ((loop_step [c6_km] c6_lc20 c6_d).2.2.2 = none
      ∧ (loop_step [c6_km] c6_lc20 c6_d).1.binding_node = none) := by
  have h19 := (c6_numeric_boundary c6_km [] c6_T c6_leaf c6_lc19 c6_d rfl rfl rfl).1
    (by decide)
  have h20 := (c6_numeric_boundary c6_km [] c6_T c6_leaf c6_lc20 c6_d rfl rfl rfl).2.1
    (by decide) (by decide)
  refine ⟨⟨?_, ?_, ?_⟩, ?_, ?_⟩
  · rw [h19.1]; decide
  · rw [h19.1]
  · rw [h19.1]
  · rw [h20]
  · rw [h20]

/-- Concrete keymap for the claim C6 counterexample: top-level `##`
binding and a default command. -/
def c6r_km : kmap :=
  ⟨"c6r", .mk [(MLE_KINPUT_NUMERIC, c6_leaf)] none none, some "cmd_insert_data", false⟩

set_option maxRecDepth 10000 in
/-- Claim C6 as stated is false: accumulating 21 digits at a keymap root
whose keymap has a default command makes the 21st digit resolve to the
DEFAULT command (the overflow miss is a top-level miss), so a command
does execute and resolution is not unbound. -/
theorem c6_overflow_executes_default_counterexample :
    (loop_steps [c6r_km] loop_context.init
        (List.replicate (MLE_LOOP_CTX_MAX_NUMERIC_LEN + 1) ⟨0, 53, 0⟩)).2.2.2
      = some "cmd_insert_data" := by decide

/-- Concrete compgen oracle for claim C9: two candidates `a`, `b`. -/
def c9_raw : List Char := ['a', '\n', 'b', '\n']
def c9_compgen : List Char → List Char := fun _ => c9_raw

/-- Claim C9 as stated is false: with N = 2 candidates `a`, `b` and
original prompt contents `x`, two successive tab presses leave the
buffer at `b`, not back at `x` (and no whitespace normalization relates
`b` to `x`). -/
theorem c9_roundtrip_counterexample :
    ((tab_streak c9_compgen 2 (loop_context.init, ['x'])).2 = ['b'])
    ∧ (count_nl c9_raw = 2)
    ∧ ((['b'] : List Char) ≠ ['x']) := by decide

/-- Witness for the amended claim C9: the third press lands on candidate
`(3-1) mod 2 = 0`, i.e. `a` again. -/
theorem c9_tab_cycle_witness :
    (tab_streak c9_compgen 3 (loop_context.init, ['x'])).2
      = [['a'], ['b']].getD ((3 - 1) % [['a'], ['b']].length) [] :=
  c9_tab_cycle c9_compgen [['a'], ['b']] ['x'] loop_context.init 3
    (by decide) (by decide) (by decide) rfl (by decide) (by decide)

end Mle
